import Mathlib

/-!
# Verification of the gPXE receive-path dispatcher (`src/net/netdevice.c`)

Shallow embedding of the network-device management core: the RX packet
queue, the network-layer protocol registry lookup, the packet dispatcher
`net_rx_process`, the polling entry point `net_poll`, and the cooperative
scheduler step `net_step`.

Modelling conventions:
* Byte buffers are `List Nat`; packet buffers (`struct pk_buff`) carry a
  byte content plus the link-layer / network-layer protocol tags, exactly
  the fields the code under verification touches.
* The linker tables `net_protocols` and `static_single_netdev_addresses`
  are modelled as explicit list parameters; the code only ever reads
  them, so every function takes them as read-only arguments (hence the
  registry is unmodified by construction, which the theorems still state
  explicitly where the spec demands it).
* Side effects of `net_rx_process` (calling `free_pkb`, invoking a
  network-layer handler's `rx_process`) are made visible as an explicit
  event trace, so that "the handler is invoked exactly once with buffer
  B" is a statement about the trace.
* The single static network device (`static_single_netdev`) is passed as
  a parameter `netdev`; the C code's global is this parameter.
-/

namespace Gpxe

/-- Link-layer header, as produced by a link-layer protocol's parsing
capability. Modelled from the spec: `struct ll_header` lives in
`gpxe/netdevice.h`, which is not part of the sources under verification;
the spec describes the capability as
`parse_link_header(buffer) -> (header_length, network_protocol_id)`, so
the header records the network-layer protocol id (network byte order)
and the link-layer header length. -/
structure LLHeader where
  net_proto : Nat
  header_len : Nat
  deriving Repr, DecidableEq

/-- Link-layer protocol capability (`struct ll_protocol`): its `parse_llh`
entry parses the link-layer header out of a buffer's bytes. -/
structure LLProtocol where
  parse_llh : List Nat → LLHeader

/-- Packet buffer (`struct pk_buff`): byte content with the link-layer
protocol tag (set by `netdev_rx`) and the resolved network-layer protocol
tag (a protocol id; `NULL`/unset is `none`), which `net_rx_process` sets
during dispatch. -/
structure PkBuff where
  data : List Nat
  ll_protocol : LLProtocol
  net_protocol : Option Nat

/-- Network-layer protocol registry entry (`struct net_protocol`):
protocol id (`uint16`, network byte order), address length, and the
`rx_process` handler capability, which consumes the buffer and returns a
status code. -/
structure NetProtocol where
  net_proto : Nat
  net_addr_len : Nat
  rx_process : PkBuff → Int

/-- Network device (`struct net_device`): the link-layer protocol it
frames packets with, and its polling capability, modelled as the list of
raw buffers the driver pushes via `netdev_rx` when polled. -/
structure NetDevice where
  ll_protocol : LLProtocol
  poll : List PkBuff

/-- Network-layer address bound to the single static device
(`struct net_address`): references a network-layer protocol (pointer
identity is modelled by the protocol id, unique in the registry) and the
address bytes. -/
structure NetAddress where
  net_protocol_id : Nat
  net_addr : List Nat
  deriving Repr, DecidableEq

/-- The `EPROTONOSUPPORT` errno (the concrete value is immaterial to the
claims; only the distinguished code `-EPROTONOSUPPORT` matters). -/
def EPROTONOSUPPORT : Int := 93

/-- Ethernet link-layer header length from `gpxe/if_ether.h`. -/
def ETH_HLEN : Nat := 14

/-- The `pkb_pull` packet-buffer operation: remove `len` bytes from the
front of the buffer. -/
def pkb_pull (pkb : PkBuff) (len : Nat) : PkBuff :=
  { pkb with data := pkb.data.drop len }

/-- The `netdev_rx` function: tag the buffer with the device's link-layer
protocol and append it to the tail of the RX queue. -/
def netdev_rx (netdev : NetDevice) (pkb : PkBuff) (rx_queue : List PkBuff) :
    List PkBuff :=
  rx_queue ++ [{ pkb with ll_protocol := netdev.ll_protocol }]

/-- The `find_net_protocol` function: linear scan of the protocol
registry for the first entry whose `net_proto` equals the given id. -/
def find_net_protocol (net_protocols : List NetProtocol) (net_proto : Nat) :
    Option NetProtocol :=
  net_protocols.find? (fun p => p.net_proto == net_proto)

/-- Match test performed by `find_netdev_by_net_addr` on one table entry:
the entry references the given protocol and its address bytes agree with
the given bytes over the protocol's `net_addr_len` (a `memcmp` over that
many bytes). -/
def net_addr_matches (net_protocol : NetProtocol) (net_address : NetAddress)
    (net_addr : List Nat) : Bool :=
  net_address.net_protocol_id == net_protocol.net_proto &&
    net_address.net_addr.take net_protocol.net_addr_len ==
      net_addr.take net_protocol.net_addr_len

/-- The `find_netdev_by_net_addr` function: scan the bound-address table;
on the first entry matching the protocol and address return the single
static device (`&static_single_netdev`, here the parameter `netdev`),
otherwise return `NULL`. -/
def find_netdev_by_net_addr (netdev : NetDevice) (addresses : List NetAddress)
    (net_protocol : NetProtocol) (net_addr : List Nat) : Option NetDevice :=
  match addresses.find? (fun na => net_addr_matches net_protocol na net_addr) with
  | some _ => some netdev
  | none => none

/-- The `net_poll` function: poll the single static device (its driver
pushes each delivered buffer through `netdev_rx`), then return whether
the RX queue is non-empty (`!list_empty(&rx_queue)`). -/
def net_poll (netdev : NetDevice) (rx_queue : List PkBuff) :
    List PkBuff × Bool :=
  let q := netdev.poll.foldl (fun acc pkb => netdev_rx netdev pkb acc) rx_queue
  (q, !q.isEmpty)

/-- The `net_rx_dequeue` function: remove and return the first packet of
the RX queue, or `NULL` when the queue is empty. -/
def net_rx_dequeue (rx_queue : List PkBuff) : Option PkBuff × List PkBuff :=
  match rx_queue with
  | [] => (none, [])
  | pkb :: rest => (some pkb, rest)

/-- Observable side effects of `net_rx_process`: the buffer was released
via `free_pkb`, or a registry entry's `rx_process` handler was invoked on
a buffer. -/
inductive RxEvent where
  | freed (pkb : PkBuff)
  | handled (net_protocol : NetProtocol) (pkb : PkBuff)

/-- The `net_rx_process` function: parse the link-layer header via the
buffer's tagged link-layer protocol, look the network-layer protocol id
up in the registry; when absent, free the buffer and return
`-EPROTONOSUPPORT`; otherwise tag the buffer with the resolved protocol,
strip `ETH_HLEN` bytes (the source's hard-coded
`pkb_pull ( pkb, ETH_HLEN )`, marked `#warning "Temporary hack"`), invoke
the handler's `rx_process`, propagate a nonzero status, and return 0 on
success. Returns the status code paired with the event trace. -/
def net_rx_process (net_protocols : List NetProtocol) (pkb : PkBuff) :
    Int × List RxEvent :=
  let llhdr := pkb.ll_protocol.parse_llh pkb.data
  match find_net_protocol net_protocols llhdr.net_proto with
  | none => (-EPROTONOSUPPORT, [RxEvent.freed pkb])
  | some net_protocol =>
    let pkb1 := { pkb with net_protocol := some net_protocol.net_proto }
    let pkb2 := pkb_pull pkb1 ETH_HLEN
    let rc := net_protocol.rx_process pkb2
    if rc ≠ 0 then (rc, [RxEvent.handled net_protocol pkb2])
    else (0, [RxEvent.handled net_protocol pkb2])

/-- Observable actions of one `net_step` invocation: a dequeued packet
was processed (with the resulting status and `net_rx_process` trace), or
the step re-armed itself via `schedule ( process )`. -/
inductive StepEvent where
  | processed (rc : Int) (events : List RxEvent)
  | schedule

/-- The `net_step` function: poll for new packets, handle at most one
received packet via `net_rx_dequeue` / `net_rx_process`, then re-schedule
the step. Returns the RX queue left behind and the trace of actions, in
order. -/
def net_step (net_protocols : List NetProtocol) (netdev : NetDevice)
    (rx_queue : List PkBuff) : List PkBuff × List StepEvent :=
  let q1 := (net_poll netdev rx_queue).1
  match net_rx_dequeue q1 with
  | (some pkb, q2) =>
    (q2, [StepEvent.processed (net_rx_process net_protocols pkb).1
            (net_rx_process net_protocols pkb).2,
          StepEvent.schedule])
  | (none, q2) => (q2, [StepEvent.schedule])

/-- Modelled from the spec: the address-configuration collaborator's
`bind(device, protocol_id, address, ...)` operation
(`add_ipv4_address`, which lives outside the sources under verification)
adds a bound-address entry for the protocol to the device's table. -/
def bind_address (addresses : List NetAddress) (net_protocol : NetProtocol)
    (net_addr : List Nat) : List NetAddress :=
  addresses ++ [⟨net_protocol.net_proto, net_addr⟩]

/-- Modelled from the spec: releasing a binding (`del_ipv4_address`,
outside the sources under verification) removes the bound-address entry
from the table. -/
def unbind_address (addresses : List NetAddress) (net_protocol : NetProtocol)
    (net_addr : List Nat) : List NetAddress :=
  addresses.filter (fun na => na ≠ ⟨net_protocol.net_proto, net_addr⟩)

/-- Buffer lengths handed to network-layer handlers, read off an
`RxEvent` trace (one entry per `rx_process` invocation). -/
def handledLengths (events : List RxEvent) : List Nat :=
  events.filterMap (fun e => match e with
    | RxEvent.handled _ pkb => some pkb.data.length
    | RxEvent.freed _ => none)

/-- Operations a test sequence may perform on the RX queue. -/
inductive QOp where
  | push (pkb : PkBuff)
  | pop

/-- Run a sequence of push (`netdev_rx`) and pop (`net_rx_dequeue`)
operations on the RX queue; returns the final queue and the sequence of
buffers the pops returned, in order. -/
def runOps (netdev : NetDevice) : List QOp → List PkBuff →
    List PkBuff × List PkBuff
  | [], q => (q, [])
  | QOp.push pkb :: rest, q => runOps netdev rest (netdev_rx netdev pkb q)
  | QOp.pop :: rest, q =>
    match net_rx_dequeue q with
    | (some pkb, q1) =>
      ((runOps netdev rest q1).1, pkb :: (runOps netdev rest q1).2)
    | (none, _) => runOps netdev rest q

/-- The subsequence of buffers pushed by a sequence of queue operations. -/
def pushedSeq (ops : List QOp) : List PkBuff :=
  ops.filterMap (fun op => match op with
    | QOp.push pkb => some pkb
    | QOp.pop => none)

/-! ## Helper lemmas -/

/-- Polling folds `netdev_rx` over the buffers the driver delivers:
the queue afterwards is the old queue followed by the delivered buffers,
each tagged with the device's link-layer protocol. -/
lemma foldl_netdev_rx (netdev : NetDevice) (l : List PkBuff)
    (q : List PkBuff) :
    l.foldl (fun acc pkb => netdev_rx netdev pkb acc) q =
      q ++ l.map (fun b => { b with ll_protocol := netdev.ll_protocol }) := by
  induction l generalizing q with
  | nil => simp
  | cons b rest ih =>
    rw [List.foldl_cons, ih]
    simp [netdev_rx]

/-- The first component of `net_poll` is the old queue with the polled
device's deliveries appended, tagged. -/
lemma net_poll_fst (netdev : NetDevice) (rx_queue : List PkBuff) :
    (net_poll netdev rx_queue).1 =
      rx_queue ++
        netdev.poll.map (fun b => { b with ll_protocol := netdev.ll_protocol }) := by
  simp [net_poll, foldl_netdev_rx]

/-! ## Claim theorems -/

/-- C6: `net_poll` invokes the registered device's polling capability
(the RX queue afterwards is the previous queue extended by exactly the
buffers that capability delivered) and returns true if and only if the
RX queue is non-empty after polling. -/
theorem c6_net_poll_pending (netdev : NetDevice) (rx_queue : List PkBuff) :
    (net_poll netdev rx_queue).1 =
      rx_queue ++
        netdev.poll.map (fun b => { b with ll_protocol := netdev.ll_protocol })
    ∧ ((net_poll netdev rx_queue).2 = true ↔ (net_poll netdev rx_queue).1 ≠ []) := by
  refine ⟨net_poll_fst netdev rx_queue, ?_⟩
  simp [net_poll]

/-- C9: every invocation of `net_step` ends with the re-scheduling
action, whatever the packet outcome was: the last element of the step's
action trace is always `StepEvent.schedule`. -/
theorem c9_step_always_reschedules (net_protocols : List NetProtocol)
    (netdev : NetDevice) (rx_queue : List PkBuff) :
    (net_step net_protocols netdev rx_queue).2.getLast? =
      some StepEvent.schedule := by
  cases h : (net_poll netdev rx_queue).1 with
  | nil => simp [net_step, h, net_rx_dequeue]
  | cons pkb rest => simp [net_step, h, net_rx_dequeue]

/-- Device used by concrete witnesses: trivial Ethernet-style framing
that reports protocol id `0x0800` with header length 14, delivering one
60-byte buffer per poll. -/
def wEthernet : LLProtocol :=
  ⟨fun _ => ⟨0x0800, 14⟩⟩

/-- A raw 60-byte buffer as handed in by a driver (witness input). -/
def wRawBuf : PkBuff :=
  ⟨List.replicate 60 0, wEthernet, none⟩

/-- Witness device whose poll delivers one buffer. -/
def wPollDev : NetDevice :=
  ⟨wEthernet, [wRawBuf]⟩

/-- Witness for C6: on a concrete device whose poll delivers one buffer
into an empty queue, `net_poll` reports pending packets. -/
theorem c6_net_poll_pending_witness : (net_poll wPollDev []).2 = true := by
  have h := c6_net_poll_pending wPollDev []
  exact h.2.mpr (by rw [h.1]; simp [wPollDev])

/-- C2: one `net_step` first polls, then dequeues and dispatches at most
one packet. If polling enqueued three buffers into an empty queue, the
step processes exactly the first and leaves the other two queued in
order; if the queue is empty after polling, the step dispatches nothing;
and in general the trace of any step holds at most one dispatch. -/
theorem c2_step_at_most_one (net_protocols : List NetProtocol)
    (netdev : NetDevice) (b1 b2 b3 : PkBuff) :
    (netdev.poll = [b1, b2, b3] →
      net_step net_protocols netdev [] =
        ([{ b2 with ll_protocol := netdev.ll_protocol },
          { b3 with ll_protocol := netdev.ll_protocol }],
         [StepEvent.processed
            (net_rx_process net_protocols
              { b1 with ll_protocol := netdev.ll_protocol }).1
            (net_rx_process net_protocols
              { b1 with ll_protocol := netdev.ll_protocol }).2,
          StepEvent.schedule]))
    ∧ (netdev.poll = [] → net_step net_protocols netdev [] = ([], [StepEvent.schedule]))
    ∧ ∀ rx_queue, (net_step net_protocols netdev rx_queue).2 = [StepEvent.schedule]
        ∨ ∃ rc evs, (net_step net_protocols netdev rx_queue).2 =
            [StepEvent.processed rc evs, StepEvent.schedule] := by
  refine ⟨?_, ?_, ?_⟩
  · intro h
    have hq := net_poll_fst netdev []
    rw [h] at hq
    simp only [net_step, hq]
    simp [net_rx_dequeue]
  · intro h
    have hq := net_poll_fst netdev []
    rw [h] at hq
    simp only [net_step, hq]
    simp [net_rx_dequeue]
  · intro rx_queue
    cases h : (net_poll netdev rx_queue).1 with
    | nil =>
      left
      simp [net_step, h, net_rx_dequeue]
    | cons pkb rest =>
      right
      exact ⟨(net_rx_process net_protocols pkb).1,
        (net_rx_process net_protocols pkb).2,
        by simp [net_step, h, net_rx_dequeue]⟩

/-- Witness for C2: with an empty registry and a device delivering three
concrete buffers, one step leaves exactly the last two (tagged) in the
queue and reports one processed packet; a device delivering nothing to
an empty queue dispatches nothing. -/
theorem c2_step_at_most_one_witness :
    net_step [] ⟨wEthernet, [wRawBuf, wRawBuf, wRawBuf]⟩ [] =
      ([{ wRawBuf with ll_protocol := wEthernet },
        { wRawBuf with ll_protocol := wEthernet }],
       [StepEvent.processed
          (net_rx_process [] { wRawBuf with ll_protocol := wEthernet }).1
          (net_rx_process [] { wRawBuf with ll_protocol := wEthernet }).2,
        StepEvent.schedule])
    ∧ net_step [] ⟨wEthernet, []⟩ [] = ([], [StepEvent.schedule]) :=
  ⟨(c2_step_at_most_one [] ⟨wEthernet, [wRawBuf, wRawBuf, wRawBuf]⟩
      wRawBuf wRawBuf wRawBuf).1 rfl,
   (c2_step_at_most_one [] ⟨wEthernet, []⟩ wRawBuf wRawBuf wRawBuf).2.1 rfl⟩

/-- C3: when the parsed network-layer protocol id has no registry entry,
`net_rx_process` frees the buffer (its entire trace is that single
`free_pkb`, so no handler is invoked) and returns `-EPROTONOSUPPORT`.
The registry enters the function as a read-only argument and the result
depends on it only through the failed lookup, so the registry is left
unmodified. -/
theorem c3_unknown_protocol (net_protocols : List NetProtocol) (pkb : PkBuff)
    (h : find_net_protocol net_protocols
          (pkb.ll_protocol.parse_llh pkb.data).net_proto = none) :
    net_rx_process net_protocols pkb = (-EPROTONOSUPPORT, [RxEvent.freed pkb]) := by
  simp [net_rx_process, h]

/-- Registry entry used by witnesses: the ARP handler, protocol id
`0x0806`, 4-byte addresses, accepting every packet. -/
def wArpHandler : NetProtocol :=
  ⟨0x0806, 4, fun _ => 0⟩

/-- Witness for C3: a concrete buffer parsing to protocol id `0x0800`
against a registry holding only the `0x0806` entry is freed with
`-EPROTONOSUPPORT`. -/
theorem c3_unknown_protocol_witness :
    net_rx_process [wArpHandler] wRawBuf =
      (-EPROTONOSUPPORT, [RxEvent.freed wRawBuf]) :=
  c3_unknown_protocol [wArpHandler] wRawBuf rfl

/-- C5: when the protocol lookup succeeds, `net_rx_process` hands the
stripped buffer to the resolved handler exactly once and returns exactly
the handler's status code (a nonzero failure code is propagated
unchanged; a zero status yields a zero return), and its trace holds no
further action on the buffer beyond that hand-off. -/
theorem c5_handler_status_propagated (net_protocols : List NetProtocol)
    (pkb : PkBuff) (net_protocol : NetProtocol)
    (h : find_net_protocol net_protocols
          (pkb.ll_protocol.parse_llh pkb.data).net_proto = some net_protocol) :
    net_rx_process net_protocols pkb =
      (net_protocol.rx_process
         (pkb_pull { pkb with net_protocol := some net_protocol.net_proto } ETH_HLEN),
       [RxEvent.handled net_protocol
         (pkb_pull { pkb with net_protocol := some net_protocol.net_proto } ETH_HLEN)]) := by
  by_cases hrc : net_protocol.rx_process
      (pkb_pull { pkb with net_protocol := some net_protocol.net_proto } ETH_HLEN) = 0
  · simp [net_rx_process, h, hrc]
  · simp [net_rx_process, h, hrc]

/-- Registry entry used by the C5 witness: an IPv4 handler for protocol
id `0x0800` that rejects every packet with status code 5. -/
def wFailingIpHandler : NetProtocol :=
  ⟨0x0800, 4, fun _ => 5⟩

/-- Witness for C5: on a concrete buffer parsing to `0x0800` with a
registered handler that fails with code 5, `net_rx_process` returns 5
and its trace is exactly the one hand-off to that handler. -/
theorem c5_handler_status_propagated_witness :
    net_rx_process [wFailingIpHandler] wRawBuf =
      (5, [RxEvent.handled wFailingIpHandler
            (pkb_pull { wRawBuf with net_protocol := some 0x0800 } ETH_HLEN)]) :=
  c5_handler_status_propagated [wFailingIpHandler] wRawBuf wFailingIpHandler rfl

/-- Running any sequence of queue operations preserves the FIFO
accounting: the popped sequence followed by the remaining queue equals
the starting queue followed by the pushed buffers (tagged by
`netdev_rx`), in order. -/
lemma runOps_fifo (netdev : NetDevice) (ops : List QOp) :
    ∀ q : List PkBuff,
      (runOps netdev ops q).2 ++ (runOps netdev ops q).1 =
        q ++ (pushedSeq ops).map
          (fun b => { b with ll_protocol := netdev.ll_protocol }) := by
  induction ops with
  | nil => intro q; simp [runOps, pushedSeq]
  | cons op rest ih =>
    intro q
    cases op with
    | push pkb =>
      have h := ih (netdev_rx netdev pkb q)
      simp only [runOps, pushedSeq, List.filterMap_cons] at h ⊢
      rw [h]
      simp [netdev_rx, pushedSeq]
    | pop =>
      cases q with
      | nil =>
        have h := ih []
        simp only [runOps, net_rx_dequeue, pushedSeq, List.filterMap_cons] at h ⊢
        exact h
      | cons x xs =>
        have h := ih xs
        simp only [runOps, net_rx_dequeue, pushedSeq, List.filterMap_cons] at h ⊢
        simp [h, pushedSeq]

/-- C4: FIFO law of the RX queue. Starting from the empty queue, after
any sequence of `netdev_rx` pushes and `net_rx_dequeue` pops, the
sequence of buffers the pops returned followed by the buffers still
queued equals the pushed buffers in push order (so pops return pushed
buffers in FIFO order, none lost and none duplicated); moreover a
successful pop returns exactly the queue's head and removes it, so the
returned buffer is no longer in the queue whenever the queue held no
duplicates. -/
theorem c4_rx_queue_fifo (netdev : NetDevice) (ops : List QOp) :
    (runOps netdev ops []).2 ++ (runOps netdev ops []).1 =
      (pushedSeq ops).map (fun b => { b with ll_protocol := netdev.ll_protocol })
    ∧ ∀ (q q1 : List PkBuff) (pkb : PkBuff),
        net_rx_dequeue q = (some pkb, q1) →
          q = pkb :: q1 ∧ (q.Nodup → pkb ∉ q1) := by
  refine ⟨by simpa using runOps_fifo netdev ops [], ?_⟩
  intro q q1 pkb h
  cases q with
  | nil => simp [net_rx_dequeue] at h
  | cons x xs =>
    simp only [net_rx_dequeue, Prod.mk.injEq, Option.some.injEq] at h
    obtain ⟨rfl, rfl⟩ := h
    exact ⟨rfl, fun hnd => (List.nodup_cons.mp hnd).1⟩

/-- Witness for C4: a concrete push-push-pop-pop-push sequence from the
empty queue satisfies the FIFO accounting, and a concrete successful
dequeue returns the head of a duplicate-free queue and leaves a queue
not containing it. -/
theorem c4_rx_queue_fifo_witness :
    ((runOps wPollDev
        [QOp.push wRawBuf, QOp.push wRawBuf, QOp.pop, QOp.pop, QOp.push wRawBuf]
        []).2 ++
      (runOps wPollDev
        [QOp.push wRawBuf, QOp.push wRawBuf, QOp.pop, QOp.pop, QOp.push wRawBuf]
        []).1 =
      (pushedSeq
          [QOp.push wRawBuf, QOp.push wRawBuf, QOp.pop, QOp.pop, QOp.push wRawBuf]).map
        (fun b => { b with ll_protocol := wPollDev.ll_protocol }))
    ∧ ([wRawBuf] = wRawBuf :: [] ∧ wRawBuf ∉ ([] : List PkBuff)) := by
  have h := c4_rx_queue_fifo wPollDev
    [QOp.push wRawBuf, QOp.push wRawBuf, QOp.pop, QOp.pop, QOp.push wRawBuf]
  have h2 := h.2 [wRawBuf] [] wRawBuf rfl
  exact ⟨h.1, h2.1, h2.2 (List.nodup_singleton wRawBuf)⟩

/-- The boolean entry match of `find_netdev_by_net_addr`, spelled out as
a proposition. -/
lemma net_addr_matches_iff (net_protocol : NetProtocol) (na : NetAddress)
    (net_addr : List Nat) :
    net_addr_matches net_protocol na net_addr = true ↔
      na.net_protocol_id = net_protocol.net_proto ∧
        na.net_addr.take net_protocol.net_addr_len =
          net_addr.take net_protocol.net_addr_len := by
  simp [net_addr_matches]

/-- Lookup success: `find_netdev_by_net_addr` returns the static device exactly when
some bound-address entry matches. -/
lemma find_netdev_eq_some_iff (netdev : NetDevice) (addresses : List NetAddress)
    (net_protocol : NetProtocol) (net_addr : List Nat) :
    find_netdev_by_net_addr netdev addresses net_protocol net_addr = some netdev ↔
      ∃ na ∈ addresses, na.net_protocol_id = net_protocol.net_proto ∧
        na.net_addr.take net_protocol.net_addr_len =
          net_addr.take net_protocol.net_addr_len := by
  unfold find_netdev_by_net_addr
  cases h : addresses.find? (fun na => net_addr_matches net_protocol na net_addr) with
  | none =>
    simp only [reduceCtorEq, false_iff]
    rintro ⟨na, hmem, h1, h2⟩
    exact absurd ((net_addr_matches_iff net_protocol na net_addr).mpr ⟨h1, h2⟩)
      (List.find?_eq_none.mp h na hmem)
  | some na =>
    have hmem := List.mem_of_find?_eq_some h
    have hfs : net_addr_matches net_protocol na net_addr = true := by
      have hb := List.find?_some h
      exact hb
    constructor
    · intro _
      exact ⟨na, hmem, (net_addr_matches_iff net_protocol na net_addr).mp hfs⟩
    · intro _
      rfl

/-- Lookup failure: `find_netdev_by_net_addr` returns `NULL` exactly when no
bound-address entry matches. -/
lemma find_netdev_eq_none_iff (netdev : NetDevice) (addresses : List NetAddress)
    (net_protocol : NetProtocol) (net_addr : List Nat) :
    find_netdev_by_net_addr netdev addresses net_protocol net_addr = none ↔
      ∀ na ∈ addresses, ¬(na.net_protocol_id = net_protocol.net_proto ∧
        na.net_addr.take net_protocol.net_addr_len =
          net_addr.take net_protocol.net_addr_len) := by
  unfold find_netdev_by_net_addr
  cases h : addresses.find? (fun na => net_addr_matches net_protocol na net_addr) with
  | none =>
    simp only [true_iff]
    intro na hmem hc
    exact absurd ((net_addr_matches_iff net_protocol na net_addr).mpr hc)
      (List.find?_eq_none.mp h na hmem)
  | some na =>
    have hmem := List.mem_of_find?_eq_some h
    have hfs : net_addr_matches net_protocol na net_addr = true := by
      have hb := List.find?_some h
      exact hb
    simp only [reduceCtorEq, false_iff, not_forall]
    exact ⟨na, hmem, fun hc =>
      hc ((net_addr_matches_iff net_protocol na net_addr).mp hfs)⟩

/-- C7: `find_netdev_by_net_addr` returns a device (always the single
static instance) if and only if some bound entry references the given
protocol and matches the given address bytes over that protocol's
`net_addr_len` (the comparison length comes from the protocol, not the
caller); when no entry matches, it returns `NULL` even though the static
device exists. -/
theorem c7_find_by_address (netdev : NetDevice) (addresses : List NetAddress)
    (net_protocol : NetProtocol) (net_addr : List Nat) :
    (find_netdev_by_net_addr netdev addresses net_protocol net_addr = some netdev ↔
      ∃ na ∈ addresses, na.net_protocol_id = net_protocol.net_proto ∧
        na.net_addr.take net_protocol.net_addr_len =
          net_addr.take net_protocol.net_addr_len)
    ∧ (find_netdev_by_net_addr netdev addresses net_protocol net_addr = none ↔
      ∀ na ∈ addresses, ¬(na.net_protocol_id = net_protocol.net_proto ∧
        na.net_addr.take net_protocol.net_addr_len =
          net_addr.take net_protocol.net_addr_len)) :=
  ⟨find_netdev_eq_some_iff netdev addresses net_protocol net_addr,
   find_netdev_eq_none_iff netdev addresses net_protocol net_addr⟩

/-- Witness for C7: with one concrete bound entry under the ARP
protocol, lookup of its address returns the static device, and lookup of
a different address returns `NULL`. -/
theorem c7_find_by_address_witness :
    find_netdev_by_net_addr wPollDev [⟨0x0806, [10, 254, 254, 1]⟩]
      wArpHandler [10, 254, 254, 1] = some wPollDev
    ∧ find_netdev_by_net_addr wPollDev [⟨0x0806, [10, 254, 254, 1]⟩]
      wArpHandler [10, 254, 254, 2] = none := by
  have h1 := c7_find_by_address wPollDev [⟨0x0806, [10, 254, 254, 1]⟩]
    wArpHandler [10, 254, 254, 1]
  have h2 := c7_find_by_address wPollDev [⟨0x0806, [10, 254, 254, 1]⟩]
    wArpHandler [10, 254, 254, 2]
  exact ⟨h1.1.mpr ⟨⟨0x0806, [10, 254, 254, 1]⟩, by simp, by decide, by decide⟩,
    h2.2.mpr (by decide)⟩

/-- C8: after binding the device to address A under protocol P,
`find_netdev_by_net_addr` with (P, A) returns the device; after the
binding is released, provided no other bound entry already matched
(P, A), the lookup returns `NULL`. The bind/unbind operations are
modelled from the spec (`add_ipv4_address` / `del_ipv4_address` are
outside the sources under verification). -/
theorem c8_bind_unbind_lookup (netdev : NetDevice) (addresses : List NetAddress)
    (net_protocol : NetProtocol) (net_addr : List Nat)
    (h : ∀ na ∈ addresses, ¬(na.net_protocol_id = net_protocol.net_proto ∧
          na.net_addr.take net_protocol.net_addr_len =
            net_addr.take net_protocol.net_addr_len)) :
    find_netdev_by_net_addr netdev (bind_address addresses net_protocol net_addr)
      net_protocol net_addr = some netdev
    ∧ find_netdev_by_net_addr netdev
        (unbind_address (bind_address addresses net_protocol net_addr)
          net_protocol net_addr)
        net_protocol net_addr = none := by
  constructor
  · exact (find_netdev_eq_some_iff netdev _ net_protocol net_addr).mpr
      ⟨⟨net_protocol.net_proto, net_addr⟩, by simp [bind_address], rfl, rfl⟩
  · refine (find_netdev_eq_none_iff netdev _ net_protocol net_addr).mpr ?_
    intro na hna
    simp only [unbind_address, bind_address, List.mem_filter, List.mem_append,
      List.mem_singleton, decide_eq_true_eq] at hna
    obtain ⟨hmem | hmem, hne⟩ := hna
    · exact h na hmem
    · exact absurd hmem hne

/-- Witness for C8: binding the static device to the concrete ARP-layer
address `[10, 254, 254, 1]` on an empty table makes the lookup return
the device, and releasing that binding makes it return `NULL`. -/
theorem c8_bind_unbind_lookup_witness :
    find_netdev_by_net_addr wPollDev
      (bind_address [] wArpHandler [10, 254, 254, 1]) wArpHandler
      [10, 254, 254, 1] = some wPollDev
    ∧ find_netdev_by_net_addr wPollDev
        (unbind_address (bind_address [] wArpHandler [10, 254, 254, 1])
          wArpHandler [10, 254, 254, 1]) wArpHandler
        [10, 254, 254, 1] = none :=
  c8_bind_unbind_lookup wPollDev [] wArpHandler [10, 254, 254, 1] (by simp)

/-- C10: `netdev_rx` overwrites the buffer's link-layer protocol tag
with the receiving device's link-layer protocol and appends the buffer
to the queue tail; consequently, if every queued buffer already carried
the device's link-layer protocol, every buffer of the queue after the
push still does — the RX queue only ever holds buffers tagged with the
framing of the device that enqueued them, which is the tag
`net_rx_process` parses with. -/
theorem c10_rx_tags_ll_protocol (netdev : NetDevice) (pkb : PkBuff)
    (rx_queue : List PkBuff) :
    netdev_rx netdev pkb rx_queue =
      rx_queue ++ [{ pkb with ll_protocol := netdev.ll_protocol }]
    ∧ ((∀ b ∈ rx_queue, b.ll_protocol = netdev.ll_protocol) →
        ∀ b ∈ netdev_rx netdev pkb rx_queue, b.ll_protocol = netdev.ll_protocol) := by
  refine ⟨rfl, ?_⟩
  intro hq b hb
  rcases List.mem_append.mp hb with hmem | hmem
  · exact hq b hmem
  · rw [List.mem_singleton.mp hmem]

/-- Witness for C10: pushing a concrete raw buffer onto the empty queue
yields the singleton queue holding the buffer retagged with the device's
link-layer protocol, and every buffer of that queue carries the tag. -/
theorem c10_rx_tags_ll_protocol_witness :
    netdev_rx wPollDev wRawBuf [] =
      [{ wRawBuf with ll_protocol := wPollDev.ll_protocol }]
    ∧ ∀ b ∈ netdev_rx wPollDev wRawBuf [], b.ll_protocol = wPollDev.ll_protocol := by
  have h := c10_rx_tags_ll_protocol wPollDev wRawBuf []
  exact ⟨h.1, h.2 (by simp)⟩

/-- Link-layer framing whose parsing capability reports a header length
of 18 bytes (and network-layer protocol id `0x0800`): a framing other
than Ethernet's 14-byte header. -/
def c1Framing : LLProtocol :=
  ⟨fun _ => ⟨0x0800, 18⟩⟩

/-- Registered handler for protocol id `0x0800`, accepting every
packet. -/
def c1Handler : NetProtocol :=
  ⟨0x0800, 4, fun _ => 0⟩

/-- A 60-byte buffer delivered under the 18-byte-header framing. -/
def c1Buf : PkBuff :=
  ⟨List.replicate 60 0, c1Framing, none⟩

/-- C1, evaluated at the failing input: `net_rx_process` does invoke the
resolved handler exactly once, but it strips the hard-coded `ETH_HLEN`
(14 bytes, the source's `#warning "Temporary hack"` line) rather than
the header length the link-layer parsing capability reports. On a
60-byte buffer whose capability reports an 18-byte header, the handler
receives 46 bytes, not the 60 − 18 = 42 bytes the claim requires. -/
theorem c1_header_strip_uses_hardcoded_eth_hlen :
    handledLengths (net_rx_process [c1Handler] c1Buf).2 = [46]
    ∧ (c1Buf.ll_protocol.parse_llh c1Buf.data).header_len = 18
    ∧ c1Buf.data.length -
        (c1Buf.ll_protocol.parse_llh c1Buf.data).header_len = 42
    ∧ handledLengths (net_rx_process [c1Handler] c1Buf).2 ≠
        [c1Buf.data.length -
          (c1Buf.ll_protocol.parse_llh c1Buf.data).header_len] := by
  refine ⟨?_, rfl, rfl, ?_⟩
  · rfl
  · decide

end Gpxe
